import Mathlib

/-!
Verification of the CSRS grades visualizer core (`src/app.py`).

The core consists of two functions:
* `parse_csrs_file` — reads an HTML transcript into a student-info mapping and
  a flat table (pandas `DataFrame`) of grade rows;
* `calculate_gwa` — derives numeric columns, an inclusion flag and weighted
  grades, groups rows by `(Year, Semester)` and computes per-term and overall
  weighted averages (GWA).

Shallow embedding conventions:
* A pandas cell value is a `Val`: a raw string, a numeric value (`num none`
  standing for float NaN produced by `pd.to_numeric(..., errors='coerce')`),
  a boolean, or `na` (the NaN that `pd.DataFrame` inserts for a missing key
  of a row dictionary).
* Floats are modelled by `Rat`; the program only ever divides by a strictly
  positive total, so no IEEE-specific behavior is exercised by the claims.
* A `DataFrame` is a `Frame`: an ordered association list from column name to
  the column's list of values.  `df[c]` is `getCol` (a `KeyError` becomes
  `Except.error`), `df[c] = v` is `setCol` (replace in place, else append).
* `Series.sum()` with its default `skipna=True` is `sumNums`, which skips
  NaN entries and returns `0` on an empty or all-NaN column.
* `BeautifulSoup.get_text(strip=True)` on a cell is modelled by `strTrim`
  of the cell's text; Python string primitives (`strip`, `upper`, `in`) are
  modelled by structurally recursive char-list functions so that every
  definition evaluates inside the kernel.
-/

/-- Python `s.strip()` on the character list: drop whitespace from both
ends. -/
def trimList (cs : List Char) : List Char :=
  ((cs.dropWhile Char.isWhitespace).reverse.dropWhile Char.isWhitespace).reverse

/-- Python `s.strip()`. -/
def strTrim (s : String) : String :=
  ⟨trimList s.data⟩

/-- Python `s.upper()` (ASCII case mapping, as used by `re.IGNORECASE` on
course codes). -/
def strUpper (s : String) : String :=
  ⟨s.data.map Char.toUpper⟩

/-- A pandas cell value.  `num none` is the float NaN produced by numeric
coercion; `na` is the NaN standing for a field absent from a row dict. -/
inductive Val where
  | str (s : String)
  | num (q : Option Rat)
  | bool (b : Bool)
  | na
  deriving DecidableEq, Repr

/-- Numeric value of a run of decimal digits. -/
def digitsVal (cs : List Char) : Nat :=
  cs.foldl (fun a c => a * 10 + (c.toNat - 48)) 0

/-- Consume an optional leading sign. -/
def parseSign : List Char → Int × List Char
  | '-' :: cs => (-1, cs)
  | '+' :: cs => (1, cs)
  | cs => (1, cs)

/-- Scale a rational by a power of ten (exponent part of a literal). -/
def expScale (q : Rat) (e : Int) : Rat :=
  if 0 ≤ e then q * (10 : Rat) ^ e.toNat else q / (10 : Rat) ^ (-e).toNat

/-- Model of `pd.to_numeric(s, errors='coerce')` on a string cell: parse an
optionally signed decimal literal (optional fractional part and exponent),
after trimming surrounding whitespace; unparseable input yields `none`
(NaN) instead of raising. -/
def parseNum (s : String) : Option Rat :=
  let cs := trimList s.data
  let sgc := parseSign cs
  let ip := sgc.2.takeWhile Char.isDigit
  let r1 := sgc.2.dropWhile Char.isDigit
  let fr :=
    match r1 with
    | '.' :: t => (t.takeWhile Char.isDigit, t.dropWhile Char.isDigit)
    | _ => ([], r1)
  if ip.isEmpty && fr.1.isEmpty then none
  else
    let mant : Rat := (sgc.1 * (digitsVal (ip ++ fr.1) : Int) : Int) / ((10 : Rat) ^ fr.1.length)
    match fr.2 with
    | [] => some mant
    | 'e' :: t =>
        let esg := parseSign t
        let ed := esg.2.takeWhile Char.isDigit
        let t2 := esg.2.dropWhile Char.isDigit
        if ed.isEmpty || !t2.isEmpty then none
        else some (expScale mant (esg.1 * (digitsVal ed : Int)))
    | 'E' :: t =>
        let esg := parseSign t
        let ed := esg.2.takeWhile Char.isDigit
        let t2 := esg.2.dropWhile Char.isDigit
        if ed.isEmpty || !t2.isEmpty then none
        else some (expScale mant (esg.1 * (digitsVal ed : Int)))
    | _ => none

/-- `p.isPrefixOf`-based substring test on char lists (Python's `in`). -/
def hasSubAux (p : List Char) : List Char → Bool
  | [] => p.isEmpty
  | c :: t => p.isPrefixOf (c :: t) || hasSubAux p t

/-- Python's substring containment `p in s`. -/
def hasSubstr (p s : String) : Bool :=
  hasSubAux p.data s.data

/-- Model of the regex test `re.search(r'^(PE|NSTP)', course, re.IGNORECASE)`:
case-insensitive match of the literal prefixes "PE"/"NSTP" at the start. -/
def containsPENSTP (s : String) : Bool :=
  "PE".data.isPrefixOf (strUpper s).data || "NSTP".data.isPrefixOf (strUpper s).data

/-- `pd.to_numeric(..., errors='coerce')` on one cell value. -/
def toNumericVal : Val → Val
  | .str s => .num (parseNum s)
  | .na => .num none
  | .num q => .num q
  | .bool b => .num (some (if b then 1 else 0))

/-- One cell of `df['Course'].str.contains(r'^(PE|NSTP)', case=False)`:
a string maps to a boolean, a missing value propagates as NaN. -/
def strContainsVal : Val → Val
  | .str s => .bool (containsPENSTP s)
  | _ => .na

/-- One cell of the unary `~` on the containment column.  On a NaN cell the
pandas inversion of the resulting object-dtype series raises `TypeError`
(NaN is a float and has no boolean complement). -/
def invertVal : Val → Except String Val
  | .bool b => .ok (.bool (!b))
  | _ => .error "TypeError: bad operand type for unary ~"

/-- Elementwise `~series`, failing on the first non-boolean cell. -/
def invertCol : List Val → Except String (List Val)
  | [] => .ok []
  | v :: vs => do
      let w ← invertVal v
      let ws ← invertCol vs
      pure (w :: ws)

/-- One cell of `series.notna()`. -/
def notnaVal : Val → Val
  | .num none => .bool false
  | .na => .bool false
  | _ => .bool true

/-- One cell of elementwise `&` on boolean series. -/
def andVal : Val → Val → Val
  | .bool a, .bool b => .bool (a && b)
  | _, _ => .na

/-- One cell of elementwise `*` with NaN propagation. -/
def mulVal : Val → Val → Val
  | .num a, .num b => .num (a.bind (fun x => b.map (fun y => x * y)))
  | _, _ => .na

/-- One step of `Series.sum()`: add a numeric entry, skip NaN and anything
else. -/
def sumStep (a : Rat) : Val → Rat
  | .num (some q) => a + q
  | _ => a

/-- `Series.sum()` with the default `skipna=True`: add the numeric non-NaN
entries, `0` for an empty or all-NaN series. -/
def sumNums (vs : List Val) : Rat :=
  vs.foldl sumStep 0

/-- A `DataFrame`: ordered association of column name to column values. -/
abbrev Frame := List (String × List Val)

/-- `df[c]`: first column named `c`, `KeyError` if absent. -/
def getCol : Frame → String → Except String (List Val)
  | [], c => .error ("KeyError: " ++ c)
  | p :: t, c => if p.1 == c then .ok p.2 else getCol t c

/-- Total variant of `getCol` (empty column when absent); only used where the
column is provably present. -/
def getColD : Frame → String → List Val
  | [], _ => []
  | p :: t, c => if p.1 == c then p.2 else getColD t c

/-- Whether a column named `c` exists. -/
def hasCol : Frame → String → Bool
  | [], _ => false
  | p :: t, c => (p.1 == c) || hasCol t c

/-- `df[c] = vs`: replace the column in place if present, else append it. -/
def setCol : Frame → String → List Val → Frame
  | [], c, vs => [(c, vs)]
  | p :: t, c, vs => if p.1 == c then (c, vs) :: t else p :: setCol t c vs

/-- The frame's column names, in order. -/
def colNames (df : Frame) : List String :=
  df.map (fun p => p.1)

theorem getCol_ok_of_hasCol (df : Frame) (c : String) (h : hasCol df c = true) :
    getCol df c = .ok (getColD df c) := by
  induction df with
  | nil => simp [hasCol] at h
  | cons p t ih =>
      by_cases hc : (p.1 == c) = true
      · simp [getCol, getColD, hc]
      · rw [hasCol, Bool.or_eq_true] at h
        rcases h with h | h
        · exact absurd h hc
        · simp [getCol, getColD, hc, ih h]

theorem getCol_setCol_self (df : Frame) (c : String) (vs : List Val) :
    getCol (setCol df c vs) c = .ok vs := by
  induction df with
  | nil => simp [setCol, getCol]
  | cons p t ih =>
      by_cases hc : p.1 == c
      · simp [setCol, getCol, hc]
      · simp [setCol, getCol, hc, ih]

theorem getCol_setCol_ne (df : Frame) (c c' : String) (vs : List Val)
    (h : c' ≠ c) : getCol (setCol df c vs) c' = getCol df c' := by
  have hcc : (c == c') = false := by
    rw [beq_eq_false_iff_ne]
    exact fun he => h he.symm
  induction df with
  | nil =>
      rw [setCol]
      simp [getCol, hcc]
  | cons p t ih =>
      by_cases hc : (p.1 == c) = true
      · have hpc : p.1 = c := by simpa [beq_iff_eq] using hc
        have hpc' : (p.1 == c') = false := by
          rw [beq_eq_false_iff_ne, hpc]
          exact fun he => h he.symm
        rw [setCol]
        simp [getCol, hc, hcc, hpc']
      · rw [setCol]
        simp [getCol, hc, ih]

theorem getColD_setCol_self (df : Frame) (c : String) (vs : List Val) :
    getColD (setCol df c vs) c = vs := by
  induction df with
  | nil => simp [setCol, getColD]
  | cons p t ih =>
      by_cases hc : (p.1 == c) = true
      · rw [setCol]
        simp [getColD, hc]
      · rw [setCol]
        simp [getColD, hc, ih]

theorem getColD_setCol_ne (df : Frame) (c c' : String) (vs : List Val)
    (h : c' ≠ c) : getColD (setCol df c vs) c' = getColD df c' := by
  have hcc : (c == c') = false := by
    rw [beq_eq_false_iff_ne]
    exact fun he => h he.symm
  induction df with
  | nil =>
      rw [setCol]
      simp [getColD, hcc]
  | cons p t ih =>
      by_cases hc : (p.1 == c) = true
      · have hpc : p.1 = c := by simpa [beq_iff_eq] using hc
        have hpc' : (p.1 == c') = false := by
          rw [beq_eq_false_iff_ne, hpc]
          exact fun he => h he.symm
        rw [setCol]
        simp [getColD, hc, hcc, hpc']
      · rw [setCol]
        simp [getColD, hc, ih]

theorem hasCol_setCol_ne (df : Frame) (c c' : String) (vs : List Val)
    (h : c' ≠ c) : hasCol (setCol df c vs) c' = hasCol df c' := by
  have hcc : (c == c') = false := by
    rw [beq_eq_false_iff_ne]
    exact fun he => h he.symm
  induction df with
  | nil =>
      rw [setCol]
      simp [hasCol, hcc]
  | cons p t ih =>
      by_cases hc : (p.1 == c) = true
      · have hpc : p.1 = c := by simpa [beq_iff_eq] using hc
        rw [setCol]
        simp [hasCol, hc, hcc, hpc]
      · rw [setCol]
        simp [hasCol, hc, ih]

theorem colNames_setCol_mem (df : Frame) (c : String) (vs : List Val)
    (h : hasCol df c = true) : colNames (setCol df c vs) = colNames df := by
  induction df with
  | nil => simp [hasCol] at h
  | cons p t ih =>
      by_cases hc : (p.1 == c) = true
      · have hpc : p.1 = c := by simpa [beq_iff_eq] using hc
        simp [setCol, colNames, hc, hpc]
      · rw [hasCol, Bool.or_eq_true] at h
        rcases h with h | h
        · exact absurd h hc
        · have ht := ih h
          simp only [setCol, hc, if_false, Bool.false_eq_true, colNames, List.map_cons] at ht ⊢
          rw [ht]

theorem colNames_setCol_not_mem (df : Frame) (c : String) (vs : List Val)
    (h : hasCol df c = false) : colNames (setCol df c vs) = colNames df ++ [c] := by
  induction df with
  | nil => simp [setCol, colNames]
  | cons p t ih =>
      rw [hasCol, Bool.or_eq_false_iff] at h
      have ht := ih h.2
      simp only [setCol, h.1, if_false, Bool.false_eq_true, colNames, List.map_cons,
        List.cons_append] at ht ⊢
      rw [ht]

/-- One row of the per-semester summary table `df_sem` built by
`calculate_gwa` (the `Year`, `Semester`, `Term`, `Units`, `GWA` cells of one
`sem_data` entry). -/
structure SemRow where
  year : Val
  sem : Val
  term : String
  units : Rat
  gwa : Rat
  deriving DecidableEq, Repr

/-- `"1st Sem" if "FIRST" in sem else "2nd Sem" if "SECOND" in sem else
"Midsem"`. -/
def semShort (s : String) : String :=
  if hasSubstr "FIRST" s then "1st Sem"
  else if hasSubstr "SECOND" s then "2nd Sem"
  else "Midsem"

/-- String content of a cell (grouping keys are always raw strings when the
label is built; other cases are unreachable there). -/
def valText : Val → String
  | .str s => s
  | _ => ""

/-- `term_label = f"{year} {short_sem}"`. -/
def termLabel (y sem : Val) : String :=
  valText y ++ " " ++ semShort (valText sem)

/-- Zip four lists positionally, truncating to the shortest. -/
def zip4 {α β γ δ : Type} : List α → List β → List γ → List δ → List (α × β × γ × δ)
  | a :: as, b :: bs, c :: cs, d :: ds => (a, b, c, d) :: zip4 as bs cs ds
  | _, _, _, _ => []

/-- Whether a grouping-key cell counts as NaN for `groupby`'s default
`dropna=True`. -/
def keyNa : Val → Bool
  | .na => true
  | .num none => true
  | _ => false

/-- A `(Year, Semester)` key survives `groupby`'s NaN-dropping. -/
def keyOk (k : Val × Val) : Bool :=
  !(keyNa k.1 || keyNa k.2)

/-- Accumulate keys left to right, appending each key not seen before. -/
def seenFold (acc : List (Val × Val)) : List (Val × Val) → List (Val × Val)
  | [] => acc
  | k :: ks => seenFold (if k ∈ acc then acc else acc ++ [k]) ks

/-- Distinct keys in order of first occurrence — the iteration order of
`df.groupby([...], sort=False)`. -/
def firstSeen (ks : List (Val × Val)) : List (Val × Val) :=
  seenFold [] ks

/-- The body of the `for (year, sem), group in sem_groups` loop: select the
group's rows, keep the included ones, sum units and weighted grades
(`skipna`), and divide guarded by `total_units > 0`.
A row is `((Year, Semester), Is_Included, Units_Calc, Weighted_Grade)`. -/
def semRowFor (rows : List ((Val × Val) × Val × Val × Val)) (k : Val × Val) : SemRow :=
  let grp := rows.filter (fun r => decide (r.1 = k))
  let valid := grp.filter (fun r => decide (r.2.1 = Val.bool true))
  let totalUnits := sumNums (valid.map (fun r => r.2.2.1))
  let weightedSum := sumNums (valid.map (fun r => r.2.2.2))
  { year := k.1, sem := k.2, term := termLabel k.1 k.2, units := totalUnits,
    gwa := if 0 < totalUnits then weightedSum / totalUnits else 0 }

/-- `calculate_gwa(df)` (src/app.py lines 32-64).  Adds the four derived
columns, groups by `(Year, Semester)` preserving first-seen order, and
computes per-term and overall GWA.  Absent columns raise `KeyError`
(`Except.error`); inverting the course-match series raises `TypeError` on a
missing course value.  The three derived columns read back inside the loop
were just assigned, so those lookups use the total `getColD`. -/
def calculate_gwa (df : Frame) : Except String (Frame × List SemRow × Rat) := do
  let units ← getCol df "Units"
  let df1 := setCol df "Units_Calc" (units.map toNumericVal)
  let grades ← getCol df1 "Grade"
  let df2 := setCol df1 "Grade_Calc" (grades.map toNumericVal)
  let courses ← getCol df2 "Course"
  let ninc ← invertCol (courses.map strContainsVal)
  let gcalc ← getCol df2 "Grade_Calc"
  let isInc := List.zipWith andVal ninc (gcalc.map notnaVal)
  let df3 := setCol df2 "Is_Included" isInc
  let gcalc2 ← getCol df3 "Grade_Calc"
  let ucalc ← getCol df3 "Units_Calc"
  let df4 := setCol df3 "Weighted_Grade" (List.zipWith mulVal gcalc2 ucalc)
  let years ← getCol df4 "Year"
  let semsC ← getCol df4 "Semester"
  let incs := getColD df4 "Is_Included"
  let ucs := getColD df4 "Units_Calc"
  let wgs := getColD df4 "Weighted_Grade"
  let keys := years.zip semsC
  let rows := zip4 keys incs ucs wgs
  let semData := ((firstSeen keys).filter keyOk).map (semRowFor rows)
  let validAll := rows.filter (fun r => decide (r.2.1 = Val.bool true))
  let tuCum := sumNums (validAll.map (fun r => r.2.2.1))
  let wsCum := sumNums (validAll.map (fun r => r.2.2.2))
  let overall := if 0 < tuCum then wsCum / tuCum else 0
  pure (df4, semData, overall)

/-- Total form of `~` on a cell; agrees with `invertVal` on booleans, which
is the only case reachable once every course cell is a string. -/
def invertValD : Val → Val
  | .bool b => .bool (!b)
  | v => v

/-- The `Units_Calc` column derived from the input frame. -/
def unitsCalcCol (df : Frame) : List Val :=
  (getColD df "Units").map toNumericVal

/-- The `Grade_Calc` column derived from the input frame. -/
def gradeCalcCol (df : Frame) : List Val :=
  (getColD df "Grade").map toNumericVal

/-- The `Is_Included` column derived from the input frame. -/
def isIncludedCol (df : Frame) : List Val :=
  List.zipWith andVal
    ((getColD df "Course").map (fun v => invertValD (strContainsVal v)))
    ((gradeCalcCol df).map notnaVal)

/-- The `Weighted_Grade` column derived from the input frame. -/
def weightedCol (df : Frame) : List Val :=
  List.zipWith mulVal (gradeCalcCol df) (unitsCalcCol df)

/-- The processed frame: the input frame with the four derived columns
assigned in source order. -/
def procFrame (df : Frame) : Frame :=
  setCol
    (setCol
      (setCol
        (setCol df "Units_Calc" (unitsCalcCol df))
        "Grade_Calc" (gradeCalcCol df))
      "Is_Included" (isIncludedCol df))
    "Weighted_Grade" (weightedCol df)

/-- The `(Year, Semester)` key of each row. -/
def aggKeys (df : Frame) : List (Val × Val) :=
  (getColD df "Year").zip (getColD df "Semester")

/-- Each row's key, inclusion flag, numeric units, weighted grade. -/
def aggRows (df : Frame) : List ((Val × Val) × Val × Val × Val) :=
  zip4 (aggKeys df) (isIncludedCol df) (unitsCalcCol df) (weightedCol df)

/-- The semester summary produced by a successful `calculate_gwa`. -/
def semSummary (df : Frame) : List SemRow :=
  ((firstSeen (aggKeys df)).filter keyOk).map (semRowFor (aggRows df))

/-- The overall GWA produced by a successful `calculate_gwa`. -/
def overallValue (df : Frame) : Rat :=
  let validAll := (aggRows df).filter (fun r => decide (r.2.1 = Val.bool true))
  let tu := sumNums (validAll.map (fun r => r.2.2.1))
  let ws := sumNums (validAll.map (fun r => r.2.2.2))
  if 0 < tu then ws / tu else 0

/-- Whether a cell is a raw string. -/
def isStr : Val → Bool
  | .str _ => true
  | _ => false

/-- No two columns share a name (real `DataFrame`s with duplicate labels
behave differently from an association list, so they are out of scope). -/
def keysNodupB : Frame → Bool
  | [] => true
  | p :: t => (!(hasCol t p.1)) && keysNodupB t

/-- Input frames on which `calculate_gwa` is exercised: the five source
columns exist, every `Course` cell is a string (a NaN course would make the
`~` inversion raise), column names are distinct and the frame is rectangular
(every real `DataFrame` is). -/
def wfInput (df : Frame) : Bool :=
  hasCol df "Units" && hasCol df "Grade" && hasCol df "Course" &&
    hasCol df "Year" && hasCol df "Semester" &&
    (getColD df "Course").all isStr &&
    keysNodupB df &&
    df.all (fun p => p.2.length == (getColD df "Course").length)

theorem bind_ok_res (a : List Val)
    (f : List Val → Except String (Frame × List SemRow × Rat)) :
    ((Except.ok a : Except String (List Val)) >>= f) = f a := rfl

theorem pure_eq_ok (x : Frame × List SemRow × Rat) :
    (pure x : Except String (Frame × List SemRow × Rat)) = .ok x := rfl

theorem invertCol_ok (vs : List Val) (h : ∀ v ∈ vs, isStr v = true) :
    invertCol (vs.map strContainsVal) = .ok (vs.map (fun v => invertValD (strContainsVal v))) := by
  induction vs with
  | nil => simp [invertCol]
  | cons v t ih =>
      have hv := h v (by simp)
      have ht := ih (fun w hw => h w (by simp [hw]))
      match v, hv with
      | .str s, _ =>
          simp only [invertCol, strContainsVal, invertVal, invertValD, ht, bind, Except.bind]
          rfl

/-- Under `wfInput`, `calculate_gwa` succeeds and returns exactly the
processed frame, the semester summary and the overall GWA of the pure
model. -/
theorem calculate_gwa_ok (df : Frame) (h : wfInput df = true) :
    calculate_gwa df = .ok (procFrame df, semSummary df, overallValue df) := by
  rw [wfInput] at h
  simp only [Bool.and_eq_true] at h
  obtain ⟨⟨⟨⟨⟨⟨⟨hU, hG⟩, hC⟩, hY⟩, hS⟩, hstr⟩, -⟩, -⟩ := h
  have hstr' : ∀ v ∈ getColD df "Course", isStr v = true := by
    simpa [List.all_eq_true] using hstr
  have eU : getCol df "Units" = .ok (getColD df "Units") :=
    getCol_ok_of_hasCol df "Units" hU
  have eG : ∀ v1, getCol (setCol df "Units_Calc" v1) "Grade" = .ok (getColD df "Grade") := by
    intro v1
    rw [getCol_setCol_ne _ _ _ _ (by decide)]
    exact getCol_ok_of_hasCol df "Grade" hG
  have eC : ∀ v1 v2,
      getCol (setCol (setCol df "Units_Calc" v1) "Grade_Calc" v2) "Course" =
        .ok (getColD df "Course") := by
    intro v1 v2
    rw [getCol_setCol_ne _ _ _ _ (by decide), getCol_setCol_ne _ _ _ _ (by decide)]
    exact getCol_ok_of_hasCol df "Course" hC
  have eI : invertCol ((getColD df "Course").map strContainsVal) =
      .ok ((getColD df "Course").map (fun v => invertValD (strContainsVal v))) :=
    invertCol_ok _ hstr'
  have eGC2 : ∀ v1 v2,
      getCol (setCol (setCol df "Units_Calc" v1) "Grade_Calc" v2) "Grade_Calc" = .ok v2 := by
    intro v1 v2
    exact getCol_setCol_self _ _ _
  have eGC3 : ∀ v1 v2 v3,
      getCol (setCol (setCol (setCol df "Units_Calc" v1) "Grade_Calc" v2) "Is_Included" v3)
        "Grade_Calc" = .ok v2 := by
    intro v1 v2 v3
    rw [getCol_setCol_ne _ _ _ _ (by decide)]
    exact getCol_setCol_self _ _ _
  have eUC3 : ∀ v1 v2 v3,
      getCol (setCol (setCol (setCol df "Units_Calc" v1) "Grade_Calc" v2) "Is_Included" v3)
        "Units_Calc" = .ok v1 := by
    intro v1 v2 v3
    rw [getCol_setCol_ne _ _ _ _ (by decide), getCol_setCol_ne _ _ _ _ (by decide)]
    exact getCol_setCol_self _ _ _
  have eY4 : ∀ v1 v2 v3 v4,
      getCol (setCol (setCol (setCol (setCol df "Units_Calc" v1) "Grade_Calc" v2)
        "Is_Included" v3) "Weighted_Grade" v4) "Year" = .ok (getColD df "Year") := by
    intro v1 v2 v3 v4
    rw [getCol_setCol_ne _ _ _ _ (by decide), getCol_setCol_ne _ _ _ _ (by decide),
      getCol_setCol_ne _ _ _ _ (by decide), getCol_setCol_ne _ _ _ _ (by decide)]
    exact getCol_ok_of_hasCol df "Year" hY
  have eS4 : ∀ v1 v2 v3 v4,
      getCol (setCol (setCol (setCol (setCol df "Units_Calc" v1) "Grade_Calc" v2)
        "Is_Included" v3) "Weighted_Grade" v4) "Semester" = .ok (getColD df "Semester") := by
    intro v1 v2 v3 v4
    rw [getCol_setCol_ne _ _ _ _ (by decide), getCol_setCol_ne _ _ _ _ (by decide),
      getCol_setCol_ne _ _ _ _ (by decide), getCol_setCol_ne _ _ _ _ (by decide)]
    exact getCol_ok_of_hasCol df "Semester" hS
  have eIncD : ∀ v1 v2 v3 v4,
      getColD (setCol (setCol (setCol (setCol df "Units_Calc" v1) "Grade_Calc" v2)
        "Is_Included" v3) "Weighted_Grade" v4) "Is_Included" = v3 := by
    intro v1 v2 v3 v4
    rw [getColD_setCol_ne _ _ _ _ (by decide)]
    exact getColD_setCol_self _ _ _
  have eUCD : ∀ v1 v2 v3 v4,
      getColD (setCol (setCol (setCol (setCol df "Units_Calc" v1) "Grade_Calc" v2)
        "Is_Included" v3) "Weighted_Grade" v4) "Units_Calc" = v1 := by
    intro v1 v2 v3 v4
    rw [getColD_setCol_ne _ _ _ _ (by decide), getColD_setCol_ne _ _ _ _ (by decide),
      getColD_setCol_ne _ _ _ _ (by decide)]
    exact getColD_setCol_self _ _ _
  have eWGD : ∀ v1 v2 v3 v4,
      getColD (setCol (setCol (setCol (setCol df "Units_Calc" v1) "Grade_Calc" v2)
        "Is_Included" v3) "Weighted_Grade" v4) "Weighted_Grade" = v4 := by
    intro v1 v2 v3 v4
    exact getColD_setCol_self _ _ _
  simp only [calculate_gwa, eU, bind_ok_res, eG, eC, eI, eGC2, eGC3, eUC3, eY4, eS4,
    eIncD, eUCD, eWGD, pure_eq_ok]
  rw [procFrame, semSummary, overallValue, aggRows, aggKeys, isIncludedCol, weightedCol,
    unitsCalcCol, gradeCalcCol]

/-- Python `key.replace(':', '')`: remove every colon character. -/
def removeColons (s : String) : String :=
  ⟨s.data.filter (fun c => decide (c ≠ ':'))⟩

/-- `d[k] = v` on a Python dict: an existing key keeps its position and gets
the new value, a new key is appended at the end. -/
def dictInsert : List (String × String) → String → String → List (String × String)
  | [], k, v => [(k, v)]
  | p :: t, k, v => if p.1 == k then (k, v) :: t else p :: dictInsert t k v

/-- Lines 12-17 of src/app.py, one row of the `class="form"` info table
(given as its `<td>` cell texts): with exactly two cells, insert the trimmed
first cell with all colons removed as key and the trimmed second cell as
value; any other cell count is skipped. -/
def infoInsert (acc : List (String × String)) (row : List String) : List (String × String) :=
  match row with
  | [c0, c1] => dictInsert acc (removeColons (strTrim c0)) (strTrim c1)
  | _ => acc

/-- The `student_info` dict built from the info-table rows. -/
def infoEntries (rows : List (List String)) : List (String × String) :=
  rows.foldl infoInsert []

/-- One `<tr>` of a grade table: its `<th>` cell texts and its `<td>` cell
texts, in document order. -/
structure GRow where
  th : List String
  td : List String
  deriving DecidableEq, Repr

/-- One `<table class="list">` grade table. -/
structure GTable where
  rows : List GRow
  deriving DecidableEq, Repr

/-- Line 22: `[th.get_text(strip=True) for th in table.find_all('th')]` —
the trimmed texts of every `<th>` cell of the whole table, row by row in
document order. -/
def tableHeaders (t : GTable) : List String :=
  ((t.rows.map GRow.th).flatten).map strTrim

/-- Line 27: `{headers[i]: col.get_text(strip=True) for i, col in
enumerate(cols) if i < len(headers)}` — pair `headers[i]` with the trimmed
text of cell `i`, truncating at the shorter list, building a dict. -/
def rowData (headers cells : List String) : List (String × String) :=
  (headers.zip (cells.map strTrim)).foldl (fun d p => dictInsert d p.1 p.2) []

/-- Lines 23-28: a row containing a `<th>` is skipped (`if row.find('th'):
continue`), a row with no `<td>` cells is skipped (`if not cols: continue`),
every other row yields `rowData`. -/
def tableRecords (headers : List String) : List GRow → List (List (String × String))
  | [] => []
  | r :: rs =>
      if r.th ≠ [] then tableRecords headers rs
      else if r.td = [] then tableRecords headers rs
      else rowData headers r.td :: tableRecords headers rs

/-- The records contributed by one grade table. -/
def tableAllRecords (t : GTable) : List (List (String × String)) :=
  tableRecords (tableHeaders t) t.rows

/-- A parsed transcript document, as far as the extractor looks at it: the
single `class="form"` info table if present (rows of `<td>` texts) and the
`class="list"` grade tables in document order. -/
structure Doc where
  infoTable : Option (List (List String))
  gradeTables : List GTable

/-- Extend the column-name list with a record key, first appearance wins. -/
def addKey (ks : List String) (k : String) : List String :=
  if ks.any (fun x => x == k) then ks else ks ++ [k]

/-- Column names of `pd.DataFrame(list_of_dicts)`: union of the dicts' keys
in first-appearance order. -/
def recordKeys (rs : List (List (String × String))) : List String :=
  rs.foldl (fun acc r => r.foldl (fun a p => addKey a p.1) acc) []

/-- A record's cell in a column: its value if the key is present, NaN
otherwise. -/
def lookupCell : List (String × String) → String → Val
  | [], _ => .na
  | p :: t, k => if p.1 == k then .str p.2 else lookupCell t k

/-- `pd.DataFrame(all_grades)`. -/
def dataFrameOfRecords (rs : List (List (String × String))) : Frame :=
  (recordKeys rs).map (fun k => (k, rs.map (fun r => lookupCell r k)))

/-- `parse_csrs_file` (src/app.py lines 7-30): the `student_info` mapping
and the flat grade table concatenated over all grade tables in document
order. -/
def parse_csrs_file (d : Doc) : List (String × String) × Frame :=
  (match d.infoTable with
   | some rows => infoEntries rows
   | none => [],
   dataFrameOfRecords ((d.gradeTables.map tableAllRecords).flatten))

/-! Definitions following the specification's words, for comparison with the
source-derived definitions above. -/

/-- Spec wording for the info-table key: the trimmed text with one
TRAILING colon stripped. -/
def stripTrailingColon (s : String) : String :=
  match s.data.reverse with
  | ':' :: t => ⟨t.reverse⟩
  | _ => s

/-- The `StudentInfo` mapping as the spec words it, except that the key
transformation is a parameter (the claims compare two candidates). -/
def specInfoEntries (keyFn : String → String) (rows : List (List String)) :
    List (String × String) :=
  (rows.filterMap (fun row =>
    match row with
    | [c0, c1] => some (keyFn (strTrim c0), strTrim c1)
    | _ => none)).foldl (fun acc p => dictInsert acc p.1 p.2) []

/-- Spec wording for the column-name list: header cells of the table's
first row only. -/
def firstRowHeaders (t : GTable) : List String :=
  match t.rows with
  | [] => []
  | r :: _ => r.th.map strTrim

/-- Spec §3: case-insensitive "does the course start with this literal"
test. -/
def startsWithCI (pre s : String) : Bool :=
  (strUpper pre).data.isPrefixOf (strUpper s).data

/-- Spec §3 `IsIncluded`: the course starts with neither "PE" nor "NSTP"
(case-insensitively) and the grade parses to a number. -/
def rowIncludedSpec (course grade : String) : Bool :=
  !(startsWithCI "PE" course || startsWithCI "NSTP" course) && (parseNum grade).isSome

/-- The rows of a processed frame read back off its columns: `(Year,
Semester)` key, `Is_Included`, `Units_Calc`, `Weighted_Grade`. -/
def frameRows (df : Frame) : List ((Val × Val) × Val × Val × Val) :=
  zip4 ((getColD df "Year").zip (getColD df "Semester"))
    (getColD df "Is_Included") (getColD df "Units_Calc") (getColD df "Weighted_Grade")

/-- The included rows of the term `(y, s)` of a processed frame. -/
def termRows (df : Frame) (y s : Val) : List ((Val × Val) × Val × Val × Val) :=
  (frameRows df).filter (fun r => decide (r.1 = (y, s)) && decide (r.2.1 = Val.bool true))

/-- Sum of `UnitsNumeric` over the included records of the term. -/
def termUnits (df : Frame) (y s : Val) : Rat :=
  sumNums ((termRows df y s).map (fun r => r.2.2.1))

/-- Sum of `WeightedGrade` over the included records of the term. -/
def termWeighted (df : Frame) (y s : Val) : Rat :=
  sumNums ((termRows df y s).map (fun r => r.2.2.2))

/-- All included rows of a processed frame. -/
def includedRows (df : Frame) : List ((Val × Val) × Val × Val × Val) :=
  (frameRows df).filter (fun r => decide (r.2.1 = Val.bool true))

/-- Sum of `UnitsNumeric` over all included records. -/
def overallUnits (df : Frame) : Rat :=
  sumNums ((includedRows df).map (fun r => r.2.2.1))

/-- Sum of `WeightedGrade` over all included records. -/
def overallWeighted (df : Frame) : Rat :=
  sumNums ((includedRows df).map (fun r => r.2.2.2))

theorem filter_filter_and {α : Type} (p q : α → Bool) (l : List α) :
    (l.filter p).filter q = l.filter (fun a => p a && q a) := by
  induction l with
  | nil => rfl
  | cons a t ih =>
      by_cases hp : p a = true <;> by_cases hq : q a = true <;>
        simp [List.filter_cons, hp, hq, ih]

theorem getColD_procFrame_year (df : Frame) :
    getColD (procFrame df) "Year" = getColD df "Year" := by
  rw [procFrame, getColD_setCol_ne _ _ _ _ (by decide), getColD_setCol_ne _ _ _ _ (by decide),
    getColD_setCol_ne _ _ _ _ (by decide), getColD_setCol_ne _ _ _ _ (by decide)]

theorem getColD_procFrame_sem (df : Frame) :
    getColD (procFrame df) "Semester" = getColD df "Semester" := by
  rw [procFrame, getColD_setCol_ne _ _ _ _ (by decide), getColD_setCol_ne _ _ _ _ (by decide),
    getColD_setCol_ne _ _ _ _ (by decide), getColD_setCol_ne _ _ _ _ (by decide)]

theorem getColD_procFrame_inc (df : Frame) :
    getColD (procFrame df) "Is_Included" = isIncludedCol df := by
  rw [procFrame, getColD_setCol_ne _ _ _ _ (by decide), getColD_setCol_self]

theorem getColD_procFrame_uc (df : Frame) :
    getColD (procFrame df) "Units_Calc" = unitsCalcCol df := by
  rw [procFrame, getColD_setCol_ne _ _ _ _ (by decide), getColD_setCol_ne _ _ _ _ (by decide),
    getColD_setCol_ne _ _ _ _ (by decide), getColD_setCol_self]

theorem getColD_procFrame_gc (df : Frame) :
    getColD (procFrame df) "Grade_Calc" = gradeCalcCol df := by
  rw [procFrame, getColD_setCol_ne _ _ _ _ (by decide), getColD_setCol_ne _ _ _ _ (by decide),
    getColD_setCol_self]

theorem getColD_procFrame_wg (df : Frame) :
    getColD (procFrame df) "Weighted_Grade" = weightedCol df := by
  rw [procFrame, getColD_setCol_self]

theorem frameRows_procFrame (df : Frame) : frameRows (procFrame df) = aggRows df := by
  rw [frameRows, aggRows, aggKeys, getColD_procFrame_year, getColD_procFrame_sem,
    getColD_procFrame_inc, getColD_procFrame_uc, getColD_procFrame_wg]

theorem termRows_procFrame (df : Frame) (k : Val × Val) :
    termRows (procFrame df) k.1 k.2 =
      ((aggRows df).filter (fun r => decide (r.1 = k))).filter
        (fun r => decide (r.2.1 = Val.bool true)) := by
  rw [termRows, frameRows_procFrame, filter_filter_and]

theorem includedRows_procFrame (df : Frame) :
    includedRows (procFrame df) =
      (aggRows df).filter (fun r => decide (r.2.1 = Val.bool true)) := by
  rw [includedRows, frameRows_procFrame]

theorem seenFold_mem (ks : List (Val × Val)) :
    ∀ (acc : List (Val × Val)) (a : Val × Val),
      a ∈ seenFold acc ks ↔ a ∈ acc ∨ a ∈ ks := by
  induction ks with
  | nil => intro acc a; simp [seenFold]
  | cons k t ih =>
      intro acc a
      rw [seenFold]
      by_cases hk : k ∈ acc
      · rw [if_pos hk, ih]
        constructor
        · rintro (h | h)
          · exact Or.inl h
          · exact Or.inr (by simp [h])
        · rintro (h | h)
          · exact Or.inl h
          · rcases List.mem_cons.mp h with h | h
            · exact Or.inl (h ▸ hk)
            · exact Or.inr h
      · rw [if_neg hk, ih]
        simp only [List.mem_append, List.mem_singleton, List.mem_cons]
        tauto

theorem mem_firstSeen (ks : List (Val × Val)) (a : Val × Val) :
    a ∈ firstSeen ks ↔ a ∈ ks := by
  rw [firstSeen, seenFold_mem]
  simp

theorem seenFold_nodup (ks : List (Val × Val)) :
    ∀ acc : List (Val × Val), acc.Nodup → (seenFold acc ks).Nodup := by
  induction ks with
  | nil => intro acc h; simpa [seenFold] using h
  | cons k t ih =>
      intro acc h
      rw [seenFold]
      by_cases hk : k ∈ acc
      · rw [if_pos hk]; exact ih acc h
      · rw [if_neg hk]
        refine ih _ ?_
        simpa [List.nodup_append, h] using hk

theorem firstSeen_nodup (ks : List (Val × Val)) : (firstSeen ks).Nodup :=
  seenFold_nodup ks [] List.nodup_nil

theorem seenFold_append_one (ks : List (Val × Val)) :
    ∀ (acc : List (Val × Val)) (k : Val × Val),
      seenFold acc (ks ++ [k]) =
        (if k ∈ seenFold acc ks then seenFold acc ks else seenFold acc ks ++ [k]) := by
  induction ks with
  | nil =>
      intro acc k
      simp [seenFold]
  | cons a t ih =>
      intro acc k
      rw [List.cons_append, seenFold, ih, seenFold]

/-- Index of the first occurrence of a key in a key sequence. -/
def firstIdx : List (Val × Val) → (Val × Val) → Nat
  | [], _ => 0
  | a :: t, k => if a = k then 0 else firstIdx t k + 1

theorem firstIdx_lt_length (l : List (Val × Val)) (k : Val × Val) (h : k ∈ l) :
    firstIdx l k < l.length := by
  induction l with
  | nil => simp at h
  | cons a t ih =>
      rw [firstIdx]
      by_cases ha : a = k
      · simp [ha]
      · rcases List.mem_cons.mp h with h' | h'
        · exact absurd h'.symm ha
        · simpa [ha] using ih h'

theorem firstIdx_append_of_mem (l l' : List (Val × Val)) (k : Val × Val) (h : k ∈ l) :
    firstIdx (l ++ l') k = firstIdx l k := by
  induction l with
  | nil => simp at h
  | cons a t ih =>
      rw [List.cons_append, firstIdx, firstIdx]
      by_cases ha : a = k
      · simp [ha]
      · rcases List.mem_cons.mp h with h' | h'
        · exact absurd h'.symm ha
        · simp [ha, ih h']

theorem firstIdx_append_self (l : List (Val × Val)) (k : Val × Val) (h : ¬ k ∈ l) :
    firstIdx (l ++ [k]) k = l.length := by
  induction l with
  | nil => simp [firstIdx]
  | cons a t ih =>
      rw [List.cons_append, firstIdx]
      have ha : ¬ a = k := fun he => h (by simp [he])
      have ht : ¬ k ∈ t := fun hm => h (by simp [hm])
      simp [ha, ih ht]

/-- The groups of `groupby(..., sort=False)` are listed in the order of each
key's first occurrence in the input. -/
theorem firstSeen_pairwise_firstIdx (ks : List (Val × Val)) :
    (firstSeen ks).Pairwise (fun a b => firstIdx ks a < firstIdx ks b) := by
  induction ks using List.reverseRecOn with
  | nil => simp [firstSeen, seenFold]
  | append_singleton l x ih =>
      rw [firstSeen, seenFold_append_one]
      by_cases hx : x ∈ seenFold [] l
      · rw [if_pos hx]
        refine List.Pairwise.imp_of_mem ?_ ih
        intro a b ha hb hab
        have ha' : a ∈ l := (mem_firstSeen l a).mp ha
        have hb' : b ∈ l := (mem_firstSeen l b).mp hb
        rw [firstIdx_append_of_mem l [x] a ha', firstIdx_append_of_mem l [x] b hb']
        exact hab
      · rw [if_neg hx]
        rw [List.pairwise_append]
        refine ⟨?_, by simp, ?_⟩
        · refine List.Pairwise.imp_of_mem ?_ ih
          intro a b ha hb hab
          have ha' : a ∈ l := (mem_firstSeen l a).mp ha
          have hb' : b ∈ l := (mem_firstSeen l b).mp hb
          rw [firstIdx_append_of_mem l [x] a ha', firstIdx_append_of_mem l [x] b hb']
          exact hab
        · intro a ha b hb
          have ha' : a ∈ l := (mem_firstSeen l a).mp ha
          have hx' : ¬ x ∈ l := fun hm => hx ((mem_firstSeen l x).mpr hm)
          have hb' : b = x := by simpa using hb
          rw [hb', firstIdx_append_of_mem l [x] a ha', firstIdx_append_self l x hx']
          exact firstIdx_lt_length l a ha'

theorem sumStep_shift (i : Rat) (v : Val) : sumStep i v = i + sumStep 0 v := by
  cases v with
  | num q =>
      cases q with
      | none =>
          show i = i + 0
          rw [add_zero]
      | some x =>
          show i + x = i + (0 + x)
          rw [zero_add]
  | str s =>
      show i = i + 0
      rw [add_zero]
  | bool b =>
      show i = i + 0
      rw [add_zero]
  | na =>
      show i = i + 0
      rw [add_zero]

theorem sumNums_go (l : List Val) :
    ∀ init : Rat, l.foldl sumStep init = init + sumNums l := by
  induction l with
  | nil =>
      intro init
      show init = init + sumNums []
      rw [show sumNums [] = 0 from rfl, add_zero]
  | cons v t ih =>
      intro init
      show List.foldl sumStep (sumStep init v) t = init + sumNums (v :: t)
      rw [show sumNums (v :: t) = List.foldl sumStep (sumStep 0 v) t from rfl]
      rw [ih (sumStep init v), ih (sumStep 0 v), sumStep_shift init v, add_assoc]

theorem sumNums_cons (v : Val) (l : List Val) :
    sumNums (v :: l) = sumStep 0 v + sumNums l := by
  show List.foldl sumStep (sumStep 0 v) l = sumStep 0 v + sumNums l
  exact sumNums_go l (sumStep 0 v)

theorem sumNums_append (l1 l2 : List Val) :
    sumNums (l1 ++ l2) = sumNums l1 + sumNums l2 := by
  show (l1 ++ l2).foldl sumStep 0 = sumNums l1 + sumNums l2
  rw [List.foldl_append, sumNums_go l2]
  rfl

/-- A NaN entry contributes nothing to an accumulating sum. -/
theorem sumNums_skip_nan (l1 l2 : List Val) :
    sumNums (l1 ++ Val.num none :: l2) = sumNums (l1 ++ l2) := by
  rw [sumNums_append, sumNums_append, sumNums_cons]
  rw [show sumStep 0 (Val.num none) = 0 from rfl, zero_add]

theorem sumNums_all_nan (l : List Val) (h : ∀ v ∈ l, v = Val.num none) :
    sumNums l = 0 := by
  induction l with
  | nil => rfl
  | cons v t ih =>
      rw [sumNums_cons, h v (by simp), ih (fun w hw => h w (by simp [hw])), add_zero]
      rfl

/-- `notna` of a coerced grade cell is exactly "the grade parses". -/
theorem notna_toNumeric (s : String) :
    notnaVal (toNumericVal (Val.str s)) = Val.bool (parseNum s).isSome := by
  cases h : parseNum s with
  | none =>
      show notnaVal (Val.num (parseNum s)) = _
      rw [h]
      rfl
  | some q =>
      show notnaVal (Val.num (parseNum s)) = _
      rw [h]
      rfl

/-- The spec's wording of the exclusion test agrees with the regex model. -/
theorem startsCI_eq_contains (c : String) :
    (startsWithCI "PE" c || startsWithCI "NSTP" c) = containsPENSTP c := by
  rw [startsWithCI, startsWithCI, containsPENSTP]
  have h1 : (strUpper "PE").data = "PE".data := by decide
  have h2 : (strUpper "NSTP").data = "NSTP".data := by decide
  rw [h1, h2]

theorem mulVal_num_none (a : Option Rat) : mulVal (Val.num a) (Val.num none) = Val.num none := by
  cases a <;> rfl

/-- The fields of one summary row, written with the spec-side sums over the
processed frame. -/
theorem semRowFor_spec (df : Frame) (k : Val × Val) :
    (semRowFor (aggRows df) k).year = k.1 ∧
    (semRowFor (aggRows df) k).sem = k.2 ∧
    (semRowFor (aggRows df) k).units = termUnits (procFrame df) k.1 k.2 ∧
    (semRowFor (aggRows df) k).gwa =
      (if 0 < termUnits (procFrame df) k.1 k.2 then
        termWeighted (procFrame df) k.1 k.2 / termUnits (procFrame df) k.1 k.2 else 0) := by
  rw [termUnits, termWeighted, termRows_procFrame df k]
  exact ⟨rfl, rfl, rfl, rfl⟩

/-- The worked example of spec §8: one included row (MATH1) and one
PE-excluded row, same term. -/
def dfEx : Frame :=
  [("Course", [Val.str "MATH1", Val.str "PE1"]),
   ("Grade", [Val.str "1.0", Val.str "1.0"]),
   ("Units", [Val.str "3", Val.str "2"]),
   ("Year", [Val.str "2023", Val.str "2023"]),
   ("Semester", [Val.str "FIRST", Val.str "FIRST"])]

/-- C8: `aggregate` is a pure function of the record sequence, so running it
twice on the same input yields identical processed records, term summaries
and overall GWA. -/
theorem aggregate_deterministic (df1 df2 : Frame) (h : df1 = df2) :
    calculate_gwa df1 = calculate_gwa df2 := by
  rw [h]

theorem aggregate_deterministic_witness :
    calculate_gwa dfEx = calculate_gwa dfEx :=
  aggregate_deterministic dfEx dfEx rfl

/-- C3 counterexample: on the empty record sequence `pd.DataFrame([])` has
no columns at all, so `calculate_gwa` raises `KeyError: 'Units'` at its
first line instead of returning an empty summary and `OverallGWA = 0.0`. -/
theorem aggregate_empty_raises_keyerror :
    calculate_gwa (dataFrameOfRecords []) = Except.error "KeyError: Units" := rfl

/-- C3 (amended): `aggregate` raises a `KeyError` whenever one of the five
source columns is absent — in particular on the empty record sequence —
but returns normally on every record table that has the columns `Course`,
`Grade`, `Units`, `Year`, `Semester` with a string in every `Course` cell;
individual rows may still lack any of the other values. -/
theorem aggregate_wf_no_raise (df : Frame) (h : wfInput df = true) :
    calculate_gwa df = Except.ok (procFrame df, semSummary df, overallValue df) :=
  calculate_gwa_ok df h

theorem aggregate_wf_no_raise_witness :
    wfInput dfEx = true ∧
    calculate_gwa dfEx = Except.ok (procFrame dfEx, semSummary dfEx, overallValue dfEx) :=
  ⟨by decide, aggregate_wf_no_raise dfEx (by decide)⟩

/-- C1: for every term group and for the overall result, GWA equals the sum
of `WeightedGrade` over the included records divided by the sum of
`UnitsNumeric` over the included records when that unit sum is positive,
and is exactly `0` (a plain number, not NaN and not an error) when the unit
sum is zero (the code's `else` branch also covers a negative sum). -/
theorem gwa_weighted_average_formula (df df' : Frame) (sd : List SemRow) (g : Rat)
    (hwf : wfInput df = true)
    (hrun : calculate_gwa df = Except.ok (df', sd, g)) :
    (∀ r ∈ sd,
      r.units = termUnits df' r.year r.sem ∧
      r.gwa = (if 0 < termUnits df' r.year r.sem then
        termWeighted df' r.year r.sem / termUnits df' r.year r.sem else 0)) ∧
    g = (if 0 < overallUnits df' then overallWeighted df' / overallUnits df' else 0) := by
  rw [calculate_gwa_ok df hwf] at hrun
  simp only [Except.ok.injEq, Prod.mk.injEq] at hrun
  obtain ⟨h1, h2, h3⟩ := hrun
  subst h1 h2 h3
  constructor
  · intro r hr
    rw [semSummary] at hr
    obtain ⟨k, hk, rfl⟩ := List.mem_map.mp hr
    obtain ⟨hy, hs, hu, hg⟩ := semRowFor_spec df k
    constructor
    · rw [hy, hs, hu]
    · rw [hy, hs, hg]
  · simp only [overallValue, overallUnits, overallWeighted, includedRows_procFrame]

theorem gwa_weighted_average_formula_witness :
    (∀ r ∈ semSummary dfEx,
      r.units = termUnits (procFrame dfEx) r.year r.sem ∧
      r.gwa = (if 0 < termUnits (procFrame dfEx) r.year r.sem then
        termWeighted (procFrame dfEx) r.year r.sem / termUnits (procFrame dfEx) r.year r.sem
        else 0)) ∧
    overallValue dfEx = (if 0 < overallUnits (procFrame dfEx) then
      overallWeighted (procFrame dfEx) / overallUnits (procFrame dfEx) else 0) :=
  gwa_weighted_average_formula dfEx (procFrame dfEx) (semSummary dfEx) (overallValue dfEx)
    (by decide) rfl

/-- C2: `aggregate` sets `Is_Included` of a record to true exactly when its
course does not start with "PE" or "NSTP" (case-insensitively) and its grade
parses to a number; in particular courses "PE101" and "nstp1" are never
included, and an unparseable grade such as "INC" excludes the record for
every course. -/
theorem is_included_characterization (df df' : Frame) (sd : List SemRow) (g : Rat)
    (hwf : wfInput df = true) (hrun : calculate_gwa df = Except.ok (df', sd, g))
    (i : Nat) (c gr : String)
    (hc : (getColD df "Course").get? i = some (Val.str c))
    (hg : (getColD df "Grade").get? i = some (Val.str gr)) :
    (getColD df' "Is_Included").get? i = some (Val.bool (rowIncludedSpec c gr)) ∧
    (∀ s : String, rowIncludedSpec "PE101" s = false) ∧
    (∀ s : String, rowIncludedSpec "nstp1" s = false) ∧
    (∀ s : String, rowIncludedSpec s "INC" = false) := by
  rw [calculate_gwa_ok df hwf] at hrun
  simp only [Except.ok.injEq, Prod.mk.injEq] at hrun
  obtain ⟨h1, h2, h3⟩ := hrun
  subst h1 h2 h3
  refine ⟨?_, ?_, ?_, ?_⟩
  · rw [getColD_procFrame_inc, isIncludedCol, gradeCalcCol, List.get?_zipWith']
    simp only [List.get?_map, hc, hg, Option.map_some', Option.some_bind]
    rw [notna_toNumeric]
    rw [show rowIncludedSpec c gr =
      (!(startsWithCI "PE" c || startsWithCI "NSTP" c) && (parseNum gr).isSome) from rfl]
    rw [startsCI_eq_contains]
    rfl
  · intro s
    rw [rowIncludedSpec]
    have h : startsWithCI "PE" "PE101" = true := by decide
    rw [h]
    simp
  · intro s
    rw [rowIncludedSpec]
    have h : startsWithCI "NSTP" "nstp1" = true := by decide
    rw [h]
    simp
  · intro s
    rw [rowIncludedSpec]
    have h : parseNum "INC" = none := by decide
    rw [h]
    simp

theorem is_included_characterization_witness :
    (getColD (procFrame dfEx) "Is_Included").get? 0 =
      some (Val.bool (rowIncludedSpec "MATH1" "1.0")) ∧
    (∀ s : String, rowIncludedSpec "PE101" s = false) ∧
    (∀ s : String, rowIncludedSpec "nstp1" s = false) ∧
    (∀ s : String, rowIncludedSpec s "INC" = false) :=
  is_included_characterization dfEx (procFrame dfEx) (semSummary dfEx) (overallValue dfEx)
    (by decide) rfl 0 "MATH1" "1.0" (by decide) (by decide)

/-- A record with non-excluded course, parseable grade and unparseable
units: included, but both numeric cells are NaN. -/
def df9 : Frame :=
  [("Course", [Val.str "CS1"]),
   ("Grade", [Val.str "2.0"]),
   ("Units", [Val.str "three"]),
   ("Year", [Val.str "2023"]),
   ("Semester", [Val.str "FIRST"])]

/-- C9: a record whose grade parses and whose course is not PE/NSTP-prefixed
but whose units string is unparseable is `Is_Included = true`, yet its
`Units_Calc` and `Weighted_Grade` are NaN, NaN entries contribute nothing to
the accumulating sums, and any term all of whose included records have NaN
units gets the `0.0` GWA fallback even though it contains included
records. -/
theorem nan_units_included_but_inert (df df' : Frame) (sd : List SemRow) (g : Rat)
    (hwf : wfInput df = true) (hrun : calculate_gwa df = Except.ok (df', sd, g))
    (i : Nat) (c gr u : String)
    (hc : (getColD df "Course").get? i = some (Val.str c))
    (hg : (getColD df "Grade").get? i = some (Val.str gr))
    (hu : (getColD df "Units").get? i = some (Val.str u))
    (hcourse : containsPENSTP c = false)
    (hgp : (parseNum gr).isSome = true)
    (hup : parseNum u = none) :
    (getColD df' "Is_Included").get? i = some (Val.bool true) ∧
    (getColD df' "Units_Calc").get? i = some (Val.num none) ∧
    (getColD df' "Weighted_Grade").get? i = some (Val.num none) ∧
    (∀ l1 l2 : List Val, sumNums (l1 ++ Val.num none :: l2) = sumNums (l1 ++ l2)) ∧
    (∀ r ∈ sd, (∀ w ∈ termRows df' r.year r.sem, w.2.2.1 = Val.num none) → r.gwa = 0) := by
  rw [calculate_gwa_ok df hwf] at hrun
  simp only [Except.ok.injEq, Prod.mk.injEq] at hrun
  obtain ⟨h1, h2, h3⟩ := hrun
  subst h1 h2 h3
  refine ⟨?_, ?_, ?_, sumNums_skip_nan, ?_⟩
  · rw [getColD_procFrame_inc, isIncludedCol, gradeCalcCol, List.get?_zipWith']
    simp only [List.get?_map, hc, hg, Option.map_some', Option.some_bind]
    rw [notna_toNumeric, hgp]
    rw [show strContainsVal (Val.str c) = Val.bool (containsPENSTP c) from rfl, hcourse]
    rfl
  · rw [getColD_procFrame_uc, unitsCalcCol]
    simp only [List.get?_map, hu, Option.map_some']
    rw [show toNumericVal (Val.str u) = Val.num (parseNum u) from rfl, hup]
  · rw [getColD_procFrame_wg, weightedCol, gradeCalcCol, unitsCalcCol, List.get?_zipWith']
    simp only [List.get?_map, hg, hu, Option.map_some', Option.some_bind]
    rw [show toNumericVal (Val.str u) = Val.num (parseNum u) from rfl, hup,
      show toNumericVal (Val.str gr) = Val.num (parseNum gr) from rfl, mulVal_num_none]
  · intro r hr hall
    rw [semSummary] at hr
    obtain ⟨k, hk, rfl⟩ := List.mem_map.mp hr
    obtain ⟨hy, hs, hu2, hg2⟩ := semRowFor_spec df k
    rw [hy, hs] at hall
    have hzero : termUnits (procFrame df) k.1 k.2 = 0 := by
      rw [termUnits]
      apply sumNums_all_nan
      intro v hv
      obtain ⟨w, hw, rfl⟩ := List.mem_map.mp hv
      exact hall w hw
    rw [hg2, hzero]
    simp

unseal Rat.mul Rat.add Rat.inv in
theorem nan_units_included_but_inert_witness :
    ((getColD (procFrame df9) "Is_Included").get? 0 = some (Val.bool true) ∧
     (getColD (procFrame df9) "Units_Calc").get? 0 = some (Val.num none) ∧
     (getColD (procFrame df9) "Weighted_Grade").get? 0 = some (Val.num none) ∧
     (∀ l1 l2 : List Val, sumNums (l1 ++ Val.num none :: l2) = sumNums (l1 ++ l2)) ∧
     (∀ r ∈ semSummary df9, (∀ w ∈ termRows (procFrame df9) r.year r.sem,
        w.2.2.1 = Val.num none) → r.gwa = 0)) ∧
    (semSummary df9).map SemRow.gwa = [0] ∧
    (semSummary df9).map SemRow.units = [0] ∧
    getColD (procFrame df9) "Is_Included" = [Val.bool true] :=
  ⟨nan_units_included_but_inert df9 (procFrame df9) (semSummary df9) (overallValue df9)
      (by decide) rfl 0 "CS1" "2.0" "three" (by decide) (by decide) (by decide)
      (by decide) (by decide) (by decide),
   by decide, by decide, by decide⟩

/-- Input frames whose rows all carry `Year` and `Semester` values (on top
of `wfInput`), so that no row is dropped by `groupby`'s NaN handling. -/
def wfRecords (df : Frame) : Bool :=
  wfInput df && (getColD df "Year").all isStr && (getColD df "Semester").all isStr

theorem keyOk_of_str (df : Frame) (hY : (getColD df "Year").all isStr = true)
    (hS : (getColD df "Semester").all isStr = true) (k : Val × Val)
    (hk : k ∈ aggKeys df) : keyOk k = true := by
  obtain ⟨y, s⟩ := k
  rw [aggKeys] at hk
  have h1 : y ∈ getColD df "Year" := (List.of_mem_zip hk).1
  have h2 : s ∈ getColD df "Semester" := (List.of_mem_zip hk).2
  have hy := List.all_eq_true.mp hY y h1
  have hs := List.all_eq_true.mp hS s h2
  cases y <;> cases s <;> first | rfl | simp [isStr] at hy hs

/-- Interleaved term keys: 2024, 2023, then 2024 again. -/
def df4x : Frame :=
  [("Course", [Val.str "CS1", Val.str "CS2", Val.str "CS3"]),
   ("Grade", [Val.str "1.0", Val.str "1.0", Val.str "1.0"]),
   ("Units", [Val.str "3", Val.str "2", Val.str "1"]),
   ("Year", [Val.str "2024", Val.str "2023", Val.str "2024"]),
   ("Semester", [Val.str "FIRST", Val.str "FIRST", Val.str "FIRST"])]

/-- C4: the summary has exactly one row per distinct `(Year, Semester)` pair
(no duplicates, and every input pair appears), the rows are ordered by the
position of each pair's first occurrence in the input (not by the pair's
value), and each row aggregates over ALL input rows with that key, whether
contiguous or not. -/
theorem term_groups_first_seen_order (df df' : Frame) (sd : List SemRow) (g : Rat)
    (hwf : wfRecords df = true) (hrun : calculate_gwa df = Except.ok (df', sd, g)) :
    (sd.map (fun r => (r.year, r.sem))).Nodup ∧
    (∀ k : Val × Val, k ∈ sd.map (fun r => (r.year, r.sem)) ↔ k ∈ aggKeys df) ∧
    (sd.map (fun r => (r.year, r.sem))).Pairwise
      (fun a b => firstIdx (aggKeys df) a < firstIdx (aggKeys df) b) ∧
    (∀ r ∈ sd, r.units = termUnits df' r.year r.sem) := by
  rw [wfRecords] at hwf
  simp only [Bool.and_eq_true] at hwf
  obtain ⟨⟨hwfI, hY⟩, hS⟩ := hwf
  rw [calculate_gwa_ok df hwfI] at hrun
  simp only [Except.ok.injEq, Prod.mk.injEq] at hrun
  obtain ⟨h1, h2, h3⟩ := hrun
  subst h1 h2 h3
  have hfil : (firstSeen (aggKeys df)).filter keyOk = firstSeen (aggKeys df) :=
    List.filter_eq_self.mpr
      (fun k hk => keyOk_of_str df hY hS k ((mem_firstSeen _ k).mp hk))
  have hmap : (semSummary df).map (fun r => (r.year, r.sem)) = firstSeen (aggKeys df) := by
    rw [semSummary, hfil, List.map_map]
    have hco : ((fun r : SemRow => (r.year, r.sem)) ∘ semRowFor (aggRows df)) =
        fun k : Val × Val => k := by
      funext k
      show ((semRowFor (aggRows df) k).year, (semRowFor (aggRows df) k).sem) = k
      obtain ⟨hy, hs, -, -⟩ := semRowFor_spec df k
      rw [hy, hs]
    rw [hco]
    simp
  refine ⟨?_, ?_, ?_, ?_⟩
  · rw [hmap]
    exact firstSeen_nodup _
  · intro k
    rw [hmap, mem_firstSeen]
  · rw [hmap]
    exact firstSeen_pairwise_firstIdx _
  · intro r hr
    rw [semSummary] at hr
    obtain ⟨k, hk, rfl⟩ := List.mem_map.mp hr
    obtain ⟨hy, hs, hu, -⟩ := semRowFor_spec df k
    rw [hy, hs, hu]

unseal Rat.mul Rat.add Rat.inv in
theorem term_groups_first_seen_order_witness :
    (((semSummary df4x).map (fun r => (r.year, r.sem))).Nodup ∧
     (∀ k : Val × Val, k ∈ (semSummary df4x).map (fun r => (r.year, r.sem)) ↔
        k ∈ aggKeys df4x) ∧
     ((semSummary df4x).map (fun r => (r.year, r.sem))).Pairwise
       (fun a b => firstIdx (aggKeys df4x) a < firstIdx (aggKeys df4x) b) ∧
     (∀ r ∈ semSummary df4x, r.units = termUnits (procFrame df4x) r.year r.sem)) ∧
    (semSummary df4x).map (fun r => (r.year, r.sem)) =
      [(Val.str "2024", Val.str "FIRST"), (Val.str "2023", Val.str "FIRST")] ∧
    (semSummary df4x).map SemRow.units = [4, 2] :=
  ⟨term_groups_first_seen_order df4x (procFrame df4x) (semSummary df4x) (overallValue df4x)
      (by decide) rfl,
   by decide, by decide⟩

/-- An input frame that already has a column named like a derived column. -/
def dfClash : Frame :=
  [("Course", [Val.str "CS1"]),
   ("Grade", [Val.str "1.5"]),
   ("Units", [Val.str "3"]),
   ("Year", [Val.str "2023"]),
   ("Semester", [Val.str "FIRST"]),
   ("Units_Calc", [Val.str "keepme"])]

unseal Rat.mul Rat.add Rat.inv in
/-- C10 counterexample: when an extracted column is already named
`Units_Calc`, `calculate_gwa` overwrites it in place — the column list is
NOT extended by four new columns and the pre-existing column's values are
NOT preserved. -/
theorem aggregate_overwrites_preexisting_column :
    calculate_gwa dfClash =
      Except.ok (procFrame dfClash, semSummary dfClash, overallValue dfClash) ∧
    colNames (procFrame dfClash) =
      colNames dfClash ++ ["Grade_Calc", "Is_Included", "Weighted_Grade"] ∧
    getColD dfClash "Units_Calc" = [Val.str "keepme"] ∧
    getColD (procFrame dfClash) "Units_Calc" = [Val.num (some 3)] :=
  ⟨rfl, by decide, by decide, by decide⟩

/-- C10 (amended): provided none of the input's columns is named
`Units_Calc`, `Grade_Calc`, `Is_Included` or `Weighted_Grade`, the processed
table is the input table with exactly those four derived columns appended,
and every pre-existing column (hence also the row order) is unchanged. -/
theorem aggregate_appends_four_columns (df df' : Frame) (sd : List SemRow) (g : Rat)
    (hwf : wfInput df = true)
    (h1 : hasCol df "Units_Calc" = false) (h2 : hasCol df "Grade_Calc" = false)
    (h3 : hasCol df "Is_Included" = false) (h4 : hasCol df "Weighted_Grade" = false)
    (hrun : calculate_gwa df = Except.ok (df', sd, g)) :
    colNames df' =
      colNames df ++ ["Units_Calc", "Grade_Calc", "Is_Included", "Weighted_Grade"] ∧
    (∀ c, hasCol df c = true → getCol df' c = getCol df c) := by
  rw [calculate_gwa_ok df hwf] at hrun
  simp only [Except.ok.injEq, Prod.mk.injEq] at hrun
  obtain ⟨he1, he2, he3⟩ := hrun
  subst he1 he2 he3
  have hGC1 : hasCol (setCol df "Units_Calc" (unitsCalcCol df)) "Grade_Calc" = false := by
    rw [hasCol_setCol_ne _ _ _ _ (by decide)]
    exact h2
  have hII2 : hasCol (setCol (setCol df "Units_Calc" (unitsCalcCol df))
      "Grade_Calc" (gradeCalcCol df)) "Is_Included" = false := by
    rw [hasCol_setCol_ne _ _ _ _ (by decide), hasCol_setCol_ne _ _ _ _ (by decide)]
    exact h3
  have hWG3 : hasCol (setCol (setCol (setCol df "Units_Calc" (unitsCalcCol df))
      "Grade_Calc" (gradeCalcCol df)) "Is_Included" (isIncludedCol df))
      "Weighted_Grade" = false := by
    rw [hasCol_setCol_ne _ _ _ _ (by decide), hasCol_setCol_ne _ _ _ _ (by decide),
      hasCol_setCol_ne _ _ _ _ (by decide)]
    exact h4
  constructor
  · rw [procFrame, colNames_setCol_not_mem _ _ _ hWG3, colNames_setCol_not_mem _ _ _ hII2,
      colNames_setCol_not_mem _ _ _ hGC1, colNames_setCol_not_mem _ _ _ h1]
    simp
  · intro c hc
    have hne1 : c ≠ "Units_Calc" := by
      intro he
      rw [he, h1] at hc
      exact Bool.false_ne_true hc
    have hne2 : c ≠ "Grade_Calc" := by
      intro he
      rw [he, h2] at hc
      exact Bool.false_ne_true hc
    have hne3 : c ≠ "Is_Included" := by
      intro he
      rw [he, h3] at hc
      exact Bool.false_ne_true hc
    have hne4 : c ≠ "Weighted_Grade" := by
      intro he
      rw [he, h4] at hc
      exact Bool.false_ne_true hc
    rw [procFrame, getCol_setCol_ne _ _ _ _ hne4, getCol_setCol_ne _ _ _ _ hne3,
      getCol_setCol_ne _ _ _ _ hne2, getCol_setCol_ne _ _ _ _ hne1]

theorem aggregate_appends_four_columns_witness :
    (colNames (procFrame dfEx) =
      colNames dfEx ++ ["Units_Calc", "Grade_Calc", "Is_Included", "Weighted_Grade"] ∧
    (∀ c, hasCol dfEx c = true → getCol (procFrame dfEx) c = getCol dfEx c)) :=
  aggregate_appends_four_columns dfEx (procFrame dfEx) (semSummary dfEx) (overallValue dfEx)
    (by decide) (by decide) (by decide) (by decide) (by decide) rfl

theorem infoEntries_foldl_aux (rows : List (List String)) :
    ∀ acc : List (String × String),
      rows.foldl infoInsert acc =
        (rows.filterMap (fun row =>
          match row with
          | [c0, c1] => some (removeColons (strTrim c0), strTrim c1)
          | _ => none)).foldl (fun a p => dictInsert a p.1 p.2) acc := by
  induction rows with
  | nil => intro acc; rfl
  | cons r t ih =>
      intro acc
      rcases r with _ | ⟨c0, _ | ⟨c1, _ | ⟨c2, rest⟩⟩⟩
      · exact ih acc
      · exact ih acc
      · exact ih (dictInsert acc (removeColons (strTrim c0)) (strTrim c1))
      · exact ih acc

/-- C5 counterexample: the source removes EVERY colon from the key
(`replace(':', '')`), not only a trailing one: the first cell "Mid: Year:"
is stored under "Mid Year", while the claim's trailing-colon-stripped key
would be "Mid: Year". -/
theorem info_key_strips_all_colons :
    infoEntries [["Mid: Year:", "v"]] = [("Mid Year", "v")] ∧
    stripTrailingColon (strTrim "Mid: Year:") = "Mid: Year" ∧
    ("Mid Year" : String) ≠ "Mid: Year" :=
  ⟨by decide, by decide, by decide⟩

/-- C5 (amended): for every two-cell row of the info table, the trimmed
first cell with ALL colon characters removed becomes the key and the
trimmed second cell the value; rows with any other cell count are silently
skipped.  The claim's own example (keys without interior colons) comes out
unchanged. -/
theorem info_rows_key_value :
    (∀ rows, infoEntries rows = specInfoEntries removeColons rows) ∧
    infoEntries [["Name", "Juan Dela Cruz"], ["Student Number", "2021-00001"]] =
      [("Name", "Juan Dela Cruz"), ("Student Number", "2021-00001")] ∧
    infoEntries [["Name", "X"], ["skipme"], [], ["a", "b", "c"]] = [("Name", "X")] := by
  refine ⟨?_, by decide, by decide⟩
  intro rows
  rw [infoEntries, specInfoEntries]
  exact infoEntries_foldl_aux rows []

theorem dictInsert_append (acc : List (String × String)) (k v : String)
    (h : ∀ p ∈ acc, p.1 ≠ k) : dictInsert acc k v = acc ++ [(k, v)] := by
  induction acc with
  | nil => rfl
  | cons p t ih =>
      have hp : (p.1 == k) = false := by
        rw [beq_eq_false_iff_ne]
        exact h p (by simp)
      rw [dictInsert]
      simp only [hp, Bool.false_eq_true, if_false, List.cons_append, List.cons.injEq, true_and]
      exact ih (fun q hq => h q (by simp [hq]))

theorem foldl_dictInsert_eq (ps : List (String × String)) :
    ∀ acc : List (String × String), (ps.map Prod.fst).Nodup →
      (∀ p ∈ acc, ∀ q ∈ ps, p.1 ≠ q.1) →
      ps.foldl (fun d p => dictInsert d p.1 p.2) acc = acc ++ ps := by
  induction ps with
  | nil =>
      intro acc _ _
      simp
  | cons q t ih =>
      intro acc hnd hdisj
      rw [List.foldl_cons]
      have h1 : dictInsert acc q.1 q.2 = acc ++ [(q.1, q.2)] :=
        dictInsert_append acc q.1 q.2 (fun p hp => hdisj p hp q (by simp))
      rw [h1, Prod.mk.eta]
      have hndt : (t.map Prod.fst).Nodup := by
        rw [List.map_cons, List.nodup_cons] at hnd
        exact hnd.2
      have hq1 : ¬ q.1 ∈ t.map Prod.fst := by
        rw [List.map_cons, List.nodup_cons] at hnd
        exact hnd.1
      have hdisj2 : ∀ p ∈ acc ++ [q], ∀ q2 ∈ t, p.1 ≠ q2.1 := by
        intro p hp q2 hq2
        rcases List.mem_append.mp hp with hp | hp
        · exact hdisj p hp q2 (by simp [hq2])
        · have hpq : p = q := by simpa using hp
          intro he
          exact hq1 (List.mem_map.mpr ⟨q2, hq2, by rw [← he, hpq]⟩)
      rw [ih (acc ++ [q]) hndt hdisj2, List.append_assoc]
      rfl

theorem zip_fst_nodup (hs : List String) :
    ∀ cs : List String, hs.Nodup → ((hs.zip cs).map Prod.fst).Nodup := by
  induction hs with
  | nil =>
      intro cs _
      simp
  | cons h t ih =>
      intro cs hnd
      cases cs with
      | nil => simp
      | cons c ct =>
          rw [List.zip_cons_cons, List.map_cons, List.nodup_cons]
          rw [List.nodup_cons] at hnd
          refine ⟨?_, ih ct hnd.2⟩
          intro hmem
          obtain ⟨p, hp, hfst⟩ := List.mem_map.mp hmem
          have hp1 : p.1 ∈ t := (List.of_mem_zip hp).1
          rw [hfst] at hp1
          exact hnd.1 hp1

theorem rowData_eq_zip (headers cells : List String) (hnd : headers.Nodup) :
    rowData headers cells = headers.zip (cells.map strTrim) := by
  rw [rowData]
  have hnd2 : ((headers.zip (cells.map strTrim)).map Prod.fst).Nodup :=
    zip_fst_nodup headers (cells.map strTrim) hnd
  have h := foldl_dictInsert_eq (headers.zip (cells.map strTrim)) [] hnd2 (by simp)
  simpa using h

theorem tableRecords_filter (headers : List String) (rows : List GRow) :
    tableRecords headers rows =
      (rows.filter (fun r => r.th.isEmpty && !r.td.isEmpty)).map
        (fun r => rowData headers r.td) := by
  induction rows with
  | nil => rfl
  | cons r t ih =>
      rw [tableRecords]
      by_cases h1 : r.th = []
      · by_cases h2 : r.td = []
        · rw [if_neg (by simp [h1]), if_pos h2, ih, List.filter_cons]
          simp [h1, h2]
        · rw [if_neg (by simp [h1]), if_neg h2, ih, List.filter_cons]
          simp [h1, h2]
      · rw [if_pos h1, ih, List.filter_cons]
        simp [h1]

/-- C6 counterexample: under a repeated column name the dict comprehension
overwrites: a 3-name header `["A", "A", "B"]` and a 3-cell row produce a
record with only 2 keys, not the 3-entry positional zip. -/
theorem rowData_duplicate_header_overwrites :
    rowData ["A", "A", "B"] ["x", "y", "z"] = [("A", "y"), ("B", "z")] ∧
    (rowData ["A", "A", "B"] ["x", "y", "z"]).length = 2 ∧
    rowData ["A", "A", "B"] ["x", "y", "z"] ≠
      (["A", "A", "B"].zip (["x", "y", "z"].map strTrim)) :=
  ⟨by decide, by decide, by decide⟩

/-- C6 (amended): provided the table's column names are pairwise distinct,
each data row's record is the positional zip of the column names against
the row's trimmed cell texts, truncated to the shorter list (so 5 cells
under a 3-name header give exactly 3 entries); a row containing a header
cell or containing no data cells produces no record.  With repeated column
names, later positions overwrite earlier ones instead. -/
theorem grade_row_zip_truncate (headers cells : List String) (rows : List GRow)
    (hnd : headers.Nodup) :
    rowData headers cells = headers.zip (cells.map strTrim) ∧
    (rowData headers cells).length = min headers.length cells.length ∧
    tableRecords headers rows =
      (rows.filter (fun r => r.th.isEmpty && !r.td.isEmpty)).map
        (fun r => rowData headers r.td) := by
  refine ⟨rowData_eq_zip headers cells hnd, ?_, tableRecords_filter headers rows⟩
  rw [rowData_eq_zip headers cells hnd, List.length_zip, List.length_map]

theorem grade_row_zip_truncate_witness :
    (rowData ["A", "B", "C"] ["a", "b", "c", "d", "e"] =
      ["A", "B", "C"].zip (["a", "b", "c", "d", "e"].map strTrim) ∧
    (rowData ["A", "B", "C"] ["a", "b", "c", "d", "e"]).length =
      min (["A", "B", "C"] : List String).length
        (["a", "b", "c", "d", "e"] : List String).length ∧
    tableRecords ["A", "B", "C"] [⟨["A", "B", "C"], []⟩, ⟨[], ["a", "b", "c", "d", "e"]⟩, ⟨[], []⟩] =
      (([⟨["A", "B", "C"], []⟩, ⟨[], ["a", "b", "c", "d", "e"]⟩, ⟨[], []⟩] : List GRow).filter
        (fun r => r.th.isEmpty && !r.td.isEmpty)).map
        (fun r => rowData ["A", "B", "C"] r.td)) ∧
    rowData ["A", "B", "C"] ["a", "b", "c", "d", "e"] = [("A", "a"), ("B", "b"), ("C", "c")] :=
  ⟨grade_row_zip_truncate ["A", "B", "C"] ["a", "b", "c", "d", "e"]
      [⟨["A", "B", "C"], []⟩, ⟨[], ["a", "b", "c", "d", "e"]⟩, ⟨[], []⟩] (by decide),
   by decide⟩

/-- A grade table with header cells in its first AND third rows. -/
def tHdr : GTable :=
  ⟨[⟨["A"], []⟩, ⟨[], ["x", "y"]⟩, ⟨["B"], []⟩]⟩

/-- C7 counterexample: `table.find_all('th')` collects header cells from
EVERY row of the table, so a `<th>` in a later row extends the column-name
list: the data row gets the key "B" from a header cell below it, which the
first-row-only reading would not produce. -/
theorem headers_not_first_row_only :
    tableHeaders tHdr = ["A", "B"] ∧
    firstRowHeaders tHdr = ["A"] ∧
    tableAllRecords tHdr = [[("A", "x"), ("B", "y")]] ∧
    tableHeaders tHdr ≠ firstRowHeaders tHdr :=
  ⟨by decide, by decide, by decide, by decide⟩

/-- C7 (amended): the column-name list is built from the trimmed texts of
ALL `<th>` cells of the table, row by row in document order — header cells
in later rows extend it. -/
theorem headers_all_rows (t : GTable) :
    tableHeaders t = (t.rows.map (fun r => r.th.map strTrim)).flatten ∧
    (∀ (r : GRow) (rs : List GRow),
      tableHeaders ⟨r :: rs⟩ = r.th.map strTrim ++ tableHeaders ⟨rs⟩) := by
  constructor
  · rw [tableHeaders]
    induction t.rows with
    | nil => rfl
    | cons r rs ih =>
        simp only [List.map_cons, List.flatten_cons, List.map_append, ih]
  · intro r rs
    rw [tableHeaders, tableHeaders]
    simp [List.map_append]
